import Mathlib

/-!
Verification of the column-mapping and engagement-count logic of the
activate-reports application (`app.py`).  The pure core of the program is
embedded below: the column-name normalizer, the keyword-based column
guesser, the boolean signal extractor `to_bool_series`, the ten segment
metrics `m1`..`m10`, the duplicate-lead count, and the report pipeline
with its failure modes.
-/

set_option maxRecDepth 4000

namespace ActivateReports

/-- A raw spreadsheet cell as pandas would hold it: missing (NaN), a genuine
boolean, an integer, or a string.  Floating-point cells are outside the model;
every numeric value handled by the claims is integral. -/
inductive Cell where
  | missing : Cell
  | boolVal : Bool → Cell
  | intVal : Int → Cell
  | strVal : String → Cell
deriving DecidableEq

/-- Characters kept by the normalizer, i.e. the regex class `[a-z0-9]`. -/
def isLowerAlnum (c : Char) : Bool :=
  (('a' ≤ c) && (c ≤ 'z')) || (('0' ≤ c) && (c ≤ '9'))

/-- Python `str.strip()` on a character list: whitespace dropped from both ends. -/
def pyStrip (l : List Char) : List Char :=
  ((l.dropWhile Char.isWhitespace).reverse.dropWhile Char.isWhitespace).reverse

/-- `re.sub(r"[^a-z0-9]+", "", ·)`: replacing every maximal run of characters
outside `[a-z0-9]` by the empty string removes exactly those characters. -/
def removeNonAlnum : List Char → List Char
  | [] => []
  | c :: cs => if isLowerAlnum c then c :: removeNonAlnum cs else removeNonAlnum cs

/-- `normalize` from app.py: `re.sub(r"[^a-z0-9]+", "", str(s).strip().lower())`. -/
def normalize (s : String) : String :=
  String.mk (removeNonAlnum ((pyStrip s.toList).map Char.toLower))

/-- The spec's description of the normalizer: the lowercase form of the input
with every non-alphanumeric character removed (no prior stripping). -/
def normalize_spec (s : String) : String :=
  String.mk ((s.toList.map Char.toLower).filter isLowerAlnum)

/-- Does `needle` occur at the very start of `hay`? -/
def headMatch : List Char → List Char → Bool
  | [], _ => true
  | _ :: _, [] => false
  | a :: as, b :: bs => (a == b) && headMatch as bs

/-- Python substring containment `needle in hay` on character lists. -/
def hasSub (needle : List Char) : List Char → Bool
  | [] => needle.isEmpty
  | b :: bs => headMatch needle (b :: bs) || hasSub needle bs

/-- Whether one column label matches any keyword after normalization:
the body of the loop in `guess_column`. -/
def matches_any (keywords : List String) (c : String) : Bool :=
  keywords.any (fun k => hasSub k.toList (normalize c).toList)

/-- `guess_column` from app.py: scan the column labels in their original order
(the dict built there preserves insertion order) and return the first whose
normalized name contains any keyword as a substring; `None` when none match. -/
def guess_column (columns keywords : List String) : Option String :=
  match columns with
  | [] => none
  | c :: rest => if matches_any keywords c then some c else guess_column rest keywords

/-- The configured keyword list for the CallAttempted role (app.py lines 80-82). -/
def call_attempted_keywords : List String :=
  ["attemptedcall", "callsattempted", "callattempt", "dialed", "callsdialed",
   "attempt", "outboundattempt"]

/-- The configured keyword list for the CallConnected role (app.py lines 83-85). -/
def call_connected_keywords : List String :=
  ["connectedcall", "callsconnected", "callconnected", "callanswer", "answered",
   "connected", "successfulcall"]

/-- The configured keyword list for the WaSent role (app.py lines 86-88). -/
def wa_sent_keywords : List String :=
  ["sentwhatsapp", "sentwa", "whatsappsnt", "wasent", "wamsg", "msgsent",
   "whatsappsent", "wadelivered", "whatsappdelivered"]

/-- The configured keyword list for the WaReceived role (app.py lines 89-91). -/
def wa_received_keywords : List String :=
  ["receivedwhatsapp", "receivedwa", "wareceived", "msgreceived",
   "whatsappreceived", "replied", "whatsappreply", "warcvd"]

/-- Numeric value of an all-digit character list. -/
def digitsVal (l : List Char) : Nat :=
  l.foldl (fun acc c => acc * 10 + (c.toNat - 48)) 0

/-- `pd.to_numeric` string parsing, modelled for integer literals: optional
surrounding whitespace, an optional sign, then at least one digit.  Anything
else (in particular the empty string) fails to parse. -/
def parseNum (s : String) : Option Int :=
  match pyStrip s.toList with
  | [] => none
  | '-' :: ds =>
    if !ds.isEmpty && ds.all Char.isDigit then some (-(digitsVal ds : Int)) else none
  | '+' :: ds =>
    if !ds.isEmpty && ds.all Char.isDigit then some ((digitsVal ds : Int)) else none
  | ds => if ds.all Char.isDigit then some ((digitsVal ds : Int)) else none

/-- `pd.to_numeric(·, errors="coerce")` on one cell; `none` models NaN.
Booleans coerce to 1/0, missing values stay NaN. -/
def to_numeric_cell : Cell → Option Int
  | Cell.missing => none
  | Cell.boolVal b => some (if b then 1 else 0)
  | Cell.intVal n => some n
  | Cell.strVal s => parseNum s

/-- Python `str()` of one cell as `Series.astype(str)` renders it:
NaN prints as "nan", booleans as "True"/"False". -/
def py_str : Cell → String
  | Cell.missing => "nan"
  | Cell.boolVal b => if b then "True" else "False"
  | Cell.intVal n => toString n
  | Cell.strVal s => s

/-- `.str.strip().str.lower()` applied to one string. -/
def strip_lower (s : String) : String :=
  String.mk ((pyStrip s.toList).map Char.toLower)

/-- The true-ish categorical vocabulary from app.py line 51. -/
def true_set : List String :=
  ["yes", "y", "true", "t", "1", "connected", "done", "received", "delivered",
   "answer", "answered", "success"]

/-- Whether pandas infers dtype `bool` for the column: every cell is a genuine
boolean (a missing value forces object dtype, so none may be present). -/
def dtype_is_bool (col : List Cell) : Bool :=
  col.all (fun c => match c with
    | Cell.boolVal _ => true
    | _ => false)

/-- `to_bool_series` from app.py: bool dtype passes through (`fillna(False)` is
a no-op on a bool dtype column); else if any cell survives `pd.to_numeric`
coercion the whole column is read numerically as `value > 0` with NaN filled
by 0; else each cell's string form is stripped, lowercased and looked up in
the true-ish vocabulary. -/
def to_bool_series (col : List Cell) : List Bool :=
  if dtype_is_bool col then
    col.map (fun c => match c with
      | Cell.boolVal b => b
      | _ => false)
  else if col.any (fun c => (to_numeric_cell c).isSome) then
    col.map (fun c => decide (0 < (to_numeric_cell c).getD 0))
  else
    col.map (fun c => true_set.contains (strip_lower (py_str c)))

/-- `m1 = call_connected | wa_connected` (app.py line 168). -/
def m1 (call_connected wa_connected : List Bool) : List Bool :=
  List.zipWith (fun a b => a || b) call_connected wa_connected

/-- `m2 = call_connected & ~wa_connected` (app.py line 169). -/
def m2 (call_connected wa_connected : List Bool) : List Bool :=
  List.zipWith (fun a b => a && !b) call_connected wa_connected

/-- `m3 = wa_connected & ~call_connected` (app.py line 170). -/
def m3 (call_connected wa_connected : List Bool) : List Bool :=
  List.zipWith (fun a b => b && !a) call_connected wa_connected

/-- `m4 = ~call_attempted` (app.py line 171). -/
def m4 (call_attempted : List Bool) : List Bool :=
  call_attempted.map (fun a => !a)

/-- `m5 = ~wa_attempted` (app.py line 172). -/
def m5 (wa_attempted : List Bool) : List Bool :=
  wa_attempted.map (fun a => !a)

/-- `m6 = ~call_attempted & ~wa_attempted` (app.py line 173). -/
def m6 (call_attempted wa_attempted : List Bool) : List Bool :=
  List.zipWith (fun a b => !a && !b) call_attempted wa_attempted

/-- `m7 = call_connected & wa_connected` (app.py line 174). -/
def m7 (call_connected wa_connected : List Bool) : List Bool :=
  List.zipWith (fun a b => a && b) call_connected wa_connected

/-- `m8 = call_connected & wa_sent & ~wa_received` (app.py line 175),
associated as in Python: `(call_connected & wa_sent) & ~wa_received`. -/
def m8 (call_connected wa_sent wa_received : List Bool) : List Bool :=
  List.zipWith (fun x r => x && !r)
    (List.zipWith (fun a b => a && b) call_connected wa_sent) wa_received

/-- `m9 = ~call_attempted & wa_attempted` (app.py line 176). -/
def m9 (call_attempted wa_attempted : List Bool) : List Bool :=
  List.zipWith (fun a b => !a && b) call_attempted wa_attempted

/-- `m10 = call_attempted & ~wa_attempted` (app.py line 177). -/
def m10 (call_attempted wa_attempted : List Bool) : List Bool :=
  List.zipWith (fun a b => a && !b) call_attempted wa_attempted

/-- `int(m.sum())` on a boolean series: the number of true entries. -/
def series_sum (l : List Bool) : Nat := l.count true

/-- `df.duplicated(subset=['Phone Number'], keep=False)`: row `i` is marked
exactly when its value also occurs at some other row index. -/
def duplicated_keep_false (vals : List Cell) : List Bool :=
  (List.range vals.length).map (fun i =>
    (List.range vals.length).any (fun j =>
      decide (j ≠ i) && decide (vals.getD j Cell.missing = vals.getD i Cell.missing)))

/-- `duplicate_leads` (app.py line 184): the number of rows marked by
`duplicated(keep=False)`. -/
def duplicate_leads (vals : List Cell) : Nat :=
  (duplicated_keep_false vals).count true

/-- The spec's reading of Duplicate Leads: rows whose value belongs to a group
of size at least two under exact-value grouping. -/
def duplicate_leads_spec (vals : List Cell) : Nat :=
  vals.countP (fun v => decide (2 ≤ vals.count v))

/-- A dataframe, columnar: an ordered association of column label to the
column's cells.  Labels are unique in any dataframe pandas produces. -/
structure Dataset where
  columns : List (String × List Cell)

/-- `df[label]`: the first column carrying the label, when present. -/
def lookupCol (ds : Dataset) (label : String) : Option (List Cell) :=
  (ds.columns.find? (fun p => decide (p.1 = label))).map (fun p => p.2)

/-- `len(df)`: the common length of the columns (read off the first one). -/
def Dataset.nrows (ds : Dataset) : Nat :=
  match ds.columns with
  | [] => 0
  | c :: _ => c.2.length

/-- The failure modes of the computation pipeline: the guarded try/except
around the four signal conversions, and the unguarded `'Phone Number'`
lookup of line 184 which raises an uncaught KeyError when absent. -/
inductive AppError where
  | signalInterpretation : AppError
  | missingIdentifierColumn : AppError
deriving DecidableEq

/-- The `metrics` dict of app.py lines 187-200, as the ordered label/count
table the app renders; `wa_attempted` is `wa_sent` and `wa_connected` is
`wa_received` by the design convention of lines 161-165. -/
def metrics_table (call_attempted call_connected wa_sent wa_received : List Bool)
    (total dupes : Nat) : List (String × Nat) :=
  let wa_attempted := wa_sent
  let wa_connected := wa_received
  [("Leads Connected by Either WhatsApp or Call (Connectivity)",
      series_sum (m1 call_connected wa_connected)),
   ("Only Connected on Calls", series_sum (m2 call_connected wa_connected)),
   ("Only Connected on Calls and WhatsApp Also Got Attempted",
      series_sum (m8 call_connected wa_sent wa_received)),
   ("Only Connected on WhatsApp", series_sum (m3 call_connected wa_connected)),
   ("Leads Connected on Both WhatsApp and Call",
      series_sum (m7 call_connected wa_connected)),
   ("Leads Where No WhatsApp and Calls Were Attempted (Call & WhatsApp = 0)",
      series_sum (m6 call_attempted wa_attempted)),
   ("No Calls Attempted", series_sum (m4 call_attempted)),
   ("No Calls Attempted but WhatsApp Attempted",
      series_sum (m9 call_attempted wa_attempted)),
   ("No WhatsApp Attempted", series_sum (m5 wa_attempted)),
   ("No WhatsApp but Calls Attempted",
      series_sum (m10 call_attempted wa_attempted)),
   ("Total Leads", total),
   ("Duplicate Leads", dupes)]

/-- The computation pipeline of app.py lines 151-200 after the mapping is
complete: convert the four selected columns to boolean series (a failed
column access or interpretation is caught and stops the app), then perform
the unguarded `'Phone Number'` lookup for the duplicate count; only when
everything succeeds is the metrics table produced. -/
def compute_report (ds : Dataset) (sel_ca sel_cc sel_ws sel_wr : String) :
    Except AppError (List (String × Nat)) :=
  match lookupCol ds sel_ca, lookupCol ds sel_cc, lookupCol ds sel_ws,
      lookupCol ds sel_wr with
  | some ca_col, some cc_col, some ws_col, some wr_col =>
    let call_attempted := to_bool_series ca_col
    let call_connected := to_bool_series cc_col
    let wa_sent := to_bool_series ws_col
    let wa_received := to_bool_series wr_col
    match lookupCol ds "Phone Number" with
    | none => Except.error AppError.missingIdentifierColumn
    | some phones =>
      Except.ok (metrics_table call_attempted call_connected wa_sent wa_received
        ds.nrows (duplicate_leads phones))
  | _, _, _, _ => Except.error AppError.signalInterpretation

/-- The end-to-end scenario dataset of the spec: four rows, the four signal
columns given as 0/1 integers, plus a distinct-valued phone-number column. -/
def scenario_ds : Dataset :=
  ⟨[("CallAttempted", [Cell.intVal 1, Cell.intVal 1, Cell.intVal 0, Cell.intVal 0]),
    ("CallConnected", [Cell.intVal 1, Cell.intVal 0, Cell.intVal 0, Cell.intVal 0]),
    ("WaSent", [Cell.intVal 1, Cell.intVal 1, Cell.intVal 1, Cell.intVal 0]),
    ("WaReceived", [Cell.intVal 0, Cell.intVal 1, Cell.intVal 0, Cell.intVal 0]),
    ("Phone Number", [Cell.strVal "p1", Cell.strVal "p2", Cell.strVal "p3",
      Cell.strVal "p4"])]⟩

/-! ### Helper lemmas -/

theorem removeNonAlnum_eq_filter (l : List Char) :
    removeNonAlnum l = l.filter isLowerAlnum := by
  induction l with
  | nil => rfl
  | cons c cs ih =>
    by_cases hc : isLowerAlnum c = true
    · simp [removeNonAlnum, List.filter_cons, hc, ih]
    · simp [removeNonAlnum, List.filter_cons, hc, ih]

theorem toLower_ws_not_alnum (c : Char) (h : c.isWhitespace = true) :
    isLowerAlnum (Char.toLower c) = false := by
  simp only [Char.isWhitespace, Bool.or_eq_true, decide_eq_true_eq] at h
  rcases h with ((h | h) | h) | h <;> subst h <;> decide

theorem ws_map_filter_eq_nil (u : List Char) (hu : ∀ c ∈ u, c.isWhitespace = true) :
    (u.map Char.toLower).filter isLowerAlnum = [] := by
  induction u with
  | nil => rfl
  | cons a t ih =>
    simp only [List.map_cons, List.filter_cons,
      toLower_ws_not_alnum a (hu a (by simp))]
    exact ih (fun c hc => hu c (by simp [hc]))

theorem pyStrip_decomp (l : List Char) :
    ∃ u v, l = u ++ pyStrip l ++ v ∧ (∀ c ∈ u, c.isWhitespace = true) ∧
      (∀ c ∈ v, c.isWhitespace = true) := by
  refine ⟨l.takeWhile Char.isWhitespace,
    ((l.dropWhile Char.isWhitespace).reverse.takeWhile Char.isWhitespace).reverse,
    ?_, ?_, ?_⟩
  · unfold pyStrip
    conv_lhs => rw [← List.takeWhile_append_dropWhile (p := Char.isWhitespace) (l := l)]
    rw [List.append_assoc]
    congr 1
    have h := List.takeWhile_append_dropWhile (p := Char.isWhitespace)
      (l := (l.dropWhile Char.isWhitespace).reverse)
    calc l.dropWhile Char.isWhitespace
        = (l.dropWhile Char.isWhitespace).reverse.reverse := by rw [List.reverse_reverse]
      _ = ((l.dropWhile Char.isWhitespace).reverse.takeWhile Char.isWhitespace ++
            (l.dropWhile Char.isWhitespace).reverse.dropWhile Char.isWhitespace).reverse := by
            rw [h]
      _ = ((l.dropWhile Char.isWhitespace).reverse.dropWhile Char.isWhitespace).reverse ++
            ((l.dropWhile Char.isWhitespace).reverse.takeWhile Char.isWhitespace).reverse := by
            rw [List.reverse_append]
  · intro c hc
    exact List.mem_takeWhile_imp hc
  · intro c hc
    exact List.mem_takeWhile_imp (List.mem_reverse.mp hc)

theorem normalize_eq_spec (s : String) : normalize s = normalize_spec s := by
  unfold normalize normalize_spec
  obtain ⟨u, v, hdecomp, hu, hv⟩ := pyStrip_decomp s.toList
  rw [removeNonAlnum_eq_filter]
  congr 1
  conv_rhs => rw [hdecomp]
  rw [List.map_append, List.map_append, List.filter_append, List.filter_append,
    ws_map_filter_eq_nil u hu, ws_map_filter_eq_nil v hv]
  simp

theorem countP_range {α : Type} (d : α) (p : α → Bool) (l : List α) :
    l.countP p = (List.range l.length).countP (fun i => p (l.getD i d)) := by
  induction l with
  | nil => simp
  | cons a t ih =>
    rw [List.length_cons, List.range_succ_eq_map, List.countP_cons, List.countP_cons,
      List.countP_map]
    have hcomp : ((fun i => p ((a :: t).getD i d)) ∘ Nat.succ) = fun i => p (t.getD i d) := by
      funext i
      simp
    rw [hcomp, ← ih]
    simp [Nat.add_comm]

theorem getD_zipWith (f : Bool → Bool → Bool) :
    ∀ (a b : List Bool) (i : Nat), i < a.length → i < b.length →
      (List.zipWith f a b).getD i false = f (a.getD i false) (b.getD i false)
  | [], _, i, ha, _ => by simp at ha
  | _ :: _, [], i, _, hb => by simp at hb
  | x :: xs, y :: ys, 0, _, _ => by simp
  | x :: xs, y :: ys, (i + 1), ha, hb => by
    simp only [List.zipWith_cons_cons, List.getD_cons_succ]
    exact getD_zipWith f xs ys i (by simpa using ha) (by simpa using hb)

theorem getD_map (f : Bool → Bool) :
    ∀ (a : List Bool) (i : Nat), i < a.length →
      (a.map f).getD i false = f (a.getD i false)
  | [], i, ha => by simp at ha
  | x :: xs, 0, _ => by simp
  | x :: xs, (i + 1), ha => by
    simp only [List.map_cons, List.getD_cons_succ]
    exact getD_map f xs i (by simpa using ha)

theorem series_sum_eq_countP (l : List Bool) : series_sum l = l.countP (fun b => b) := by
  unfold series_sum
  rw [List.count_eq_countP]
  apply List.countP_congr
  intro b _
  cases b <;> simp

theorem countTrue_zipWith (f : Bool → Bool → Bool) (a b : List Bool) (n : Nat)
    (ha : a.length = n) (hb : b.length = n) :
    series_sum (List.zipWith f a b) =
      ((List.range n).filter (fun i => f (a.getD i false) (b.getD i false))).length := by
  rw [series_sum_eq_countP, countP_range false, List.length_zipWith, ha, hb, Nat.min_self,
    ← List.countP_eq_length_filter]
  apply List.countP_congr
  intro i hi
  have hi' : i < n := List.mem_range.mp hi
  rw [getD_zipWith f a b i (by rw [ha]; exact hi') (by rw [hb]; exact hi')]

theorem countTrue_map (f : Bool → Bool) (a : List Bool) (n : Nat) (ha : a.length = n) :
    series_sum (a.map f) =
      ((List.range n).filter (fun i => f (a.getD i false))).length := by
  rw [series_sum_eq_countP, countP_range false, List.length_map, ha,
    ← List.countP_eq_length_filter]
  apply List.countP_congr
  intro i hi
  have hi' : i < n := List.mem_range.mp hi
  rw [getD_map f a i (by rw [ha]; exact hi')]

theorem headMatch_iff (needle : List Char) :
    ∀ hay, headMatch needle hay = true ↔ ∃ t, hay = needle ++ t := by
  induction needle with
  | nil =>
    intro hay
    simp [headMatch]
  | cons a as ih =>
    intro hay
    cases hay with
    | nil =>
      simp only [headMatch, List.cons_append]
      constructor
      · intro h
        exact absurd h (by simp)
      · rintro ⟨t, ht⟩
        exact absurd ht (by simp)
    | cons b bs =>
      simp only [headMatch, Bool.and_eq_true, beq_iff_eq, ih bs]
      constructor
      · rintro ⟨rfl, t, rfl⟩
        exact ⟨t, rfl⟩
      · rintro ⟨t, ht⟩
        rw [List.cons_append] at ht
        injection ht with h1 h2
        exact ⟨h1.symm, t, h2⟩

theorem hasSub_iff (needle : List Char) :
    ∀ hay, hasSub needle hay = true ↔ ∃ u v, hay = u ++ needle ++ v := by
  intro hay
  induction hay with
  | nil =>
    simp only [hasSub, List.isEmpty_iff]
    constructor
    · rintro rfl
      exact ⟨[], [], rfl⟩
    · rintro ⟨u, v, huv⟩
      cases u with
      | nil =>
        simp only [List.nil_append] at huv
        cases needle with
        | nil => rfl
        | cons x xs => exact absurd huv (by simp)
      | cons x u' => exact absurd huv (by simp)
  | cons b bs ih =>
    simp only [hasSub, Bool.or_eq_true, headMatch_iff, ih]
    constructor
    · rintro (⟨t, ht⟩ | ⟨u, v, huv⟩)
      · exact ⟨[], t, by simpa using ht⟩
      · exact ⟨b :: u, v, by simp [huv]⟩
    · rintro ⟨u, v, huv⟩
      cases u with
      | nil =>
        left
        exact ⟨v, by simpa using huv⟩
      | cons x u' =>
        right
        rw [List.cons_append, List.cons_append] at huv
        injection huv with h1 h2
        exact ⟨u', v, h2⟩

/-- The spec's matching relation for one column label: some configured keyword
occurs inside the normalized label as a contiguous substring. -/
def keyword_occurs (keywords : List String) (c : String) : Prop :=
  ∃ k ∈ keywords, ∃ u v, (normalize c).toList = u ++ k.toList ++ v

theorem matches_any_iff (keywords : List String) (c : String) :
    matches_any keywords c = true ↔ keyword_occurs keywords c := by
  unfold matches_any keyword_occurs
  simp only [List.any_eq_true]
  constructor
  · rintro ⟨k, hk, hsub⟩
    exact ⟨k, hk, (hasSub_iff _ _).mp hsub⟩
  · rintro ⟨k, hk, u, v, h⟩
    exact ⟨k, hk, (hasSub_iff _ _).mpr ⟨u, v, h⟩⟩

theorem guess_column_none_iff (columns keywords : List String) :
    guess_column columns keywords = none ↔
      ∀ c ∈ columns, matches_any keywords c = false := by
  induction columns with
  | nil => simp [guess_column]
  | cons c rest ih =>
    by_cases hc : matches_any keywords c = true
    · simp [guess_column, hc]
    · have hc' : matches_any keywords c = false := by simpa using hc
      simp [guess_column, hc', ih]

theorem guess_column_some_iff (columns keywords : List String) (c : String) :
    guess_column columns keywords = some c ↔
      ∃ i, i < columns.length ∧ columns.getD i "" = c ∧
        matches_any keywords c = true ∧
        ∀ j, j < i → matches_any keywords (columns.getD j "") = false := by
  induction columns generalizing c with
  | nil => simp [guess_column]
  | cons c0 rest ih =>
    by_cases h0 : matches_any keywords c0 = true
    · simp only [guess_column, if_pos h0]
      constructor
      · intro h
        injection h with h
        subst h
        exact ⟨0, Nat.succ_pos _, rfl, h0, fun j hj => absurd hj (Nat.not_lt_zero j)⟩
      · rintro ⟨i, hi, hgd, hm, hall⟩
        cases i with
        | zero =>
          simp only [List.getD_cons_zero] at hgd
          rw [hgd]
        | succ i =>
          have := hall 0 (Nat.succ_pos i)
          simp only [List.getD_cons_zero] at this
          rw [this] at h0
          exact absurd h0 (by simp)
    · have h0' : matches_any keywords c0 = false := by simpa using h0
      simp only [guess_column, if_neg h0]
      rw [ih]
      constructor
      · rintro ⟨i, hi, hgd, hm, hall⟩
        refine ⟨i + 1, Nat.succ_lt_succ hi, by simpa using hgd, hm, fun j hj => ?_⟩
        cases j with
        | zero => simpa using h0'
        | succ j => simpa using hall j (Nat.lt_of_succ_lt_succ hj)
      · rintro ⟨i, hi, hgd, hm, hall⟩
        cases i with
        | zero =>
          simp only [List.getD_cons_zero] at hgd
          subst hgd
          exact absurd hm (by simp [h0'])
        | succ i =>
          refine ⟨i, Nat.lt_of_succ_lt_succ hi, by simpa using hgd, hm, fun j hj => ?_⟩
          simpa using hall (j + 1) (Nat.succ_lt_succ hj)

theorem nodup_mem_two_le_iff {S : List Nat} (hS : S.Nodup) {i : Nat} (hi : i ∈ S) :
    2 ≤ S.length ↔ ∃ j ∈ S, j ≠ i := by
  cases S with
  | nil => simp at hi
  | cons x t =>
    cases t with
    | nil =>
      simp only [List.mem_singleton] at hi
      subst hi
      simp
    | cons y u =>
      constructor
      · intro _
        by_cases hx : x = i
        · have hxy : x ≠ y := by
            rcases List.nodup_cons.mp hS with ⟨hnm, _⟩
            intro hcon
            exact hnm (by simp [hcon])
          refine ⟨y, by simp, ?_⟩
          rw [hx] at hxy
          exact fun hyi => hxy hyi.symm
        · exact ⟨x, by simp, hx⟩
      · intro _
        simp only [List.length_cons]
        omega

theorem count_eq_countP_decide (a : Cell) (l : List Cell) :
    l.count a = l.countP (fun x => decide (x = a)) := by
  rw [List.count_eq_countP]
  apply List.countP_congr
  intro x _
  simp [beq_iff_eq]

theorem count_getD_two_le (vals : List Cell) (i : Nat) (hi : i < vals.length) :
    2 ≤ vals.count (vals.getD i Cell.missing) ↔
      ∃ j, j < vals.length ∧ j ≠ i ∧
        vals.getD j Cell.missing = vals.getD i Cell.missing := by
  have hcount : vals.count (vals.getD i Cell.missing) =
      ((List.range vals.length).filter
        (fun j => decide (vals.getD j Cell.missing = vals.getD i Cell.missing))).length := by
    rw [count_eq_countP_decide, countP_range Cell.missing, List.countP_eq_length_filter]
  have hSnodup : ((List.range vals.length).filter
      (fun j => decide (vals.getD j Cell.missing = vals.getD i Cell.missing))).Nodup :=
    (List.nodup_range _).filter _
  have hiS : i ∈ (List.range vals.length).filter
      (fun j => decide (vals.getD j Cell.missing = vals.getD i Cell.missing)) := by
    rw [List.mem_filter, List.mem_range]
    exact ⟨hi, by simp⟩
  rw [hcount, nodup_mem_two_le_iff hSnodup hiS]
  constructor
  · rintro ⟨j, hjS, hji⟩
    rw [List.mem_filter, List.mem_range] at hjS
    exact ⟨j, hjS.1, hji, by simpa using hjS.2⟩
  · rintro ⟨j, hj1, hj2, hj3⟩
    exact ⟨j, by rw [List.mem_filter, List.mem_range]; exact ⟨hj1, by simpa using hj3⟩, hj2⟩

theorem c5_aux : ∀ (cc wr : List Bool), cc.length = wr.length →
    series_sum (m7 cc wr) ≤ series_sum (m1 cc wr) ∧
      series_sum (m2 cc wr) + series_sum (m7 cc wr) + series_sum (m3 cc wr) +
        series_sum (List.zipWith (fun a b => !a && !b) cc wr) = cc.length
  | [], [], _ => by simp [m1, m2, m3, m7, series_sum]
  | [], _ :: _, h => by simp at h
  | _ :: _, [], h => by simp at h
  | a :: t, b :: u, h => by
    have ht : t.length = u.length := by simpa using h
    obtain ⟨ih1, ih2⟩ := c5_aux t u ht
    unfold m1 m2 m3 m7 series_sum at *
    cases a <;> cases b <;>
      simp only [List.zipWith_cons_cons, List.count_cons, List.length_cons] <;>
      simp <;> omega

theorem c10_aux1 : ∀ (ca ws : List Bool), ca.length = ws.length →
    series_sum (m4 ca) = series_sum (m6 ca ws) + series_sum (m9 ca ws) ∧
      series_sum (m5 ws) = series_sum (m6 ca ws) + series_sum (m10 ca ws)
  | [], [], _ => by simp [m4, m5, m6, m9, m10, series_sum]
  | [], _ :: _, h => by simp at h
  | _ :: _, [], h => by simp at h
  | a :: t, b :: u, h => by
    have ht : t.length = u.length := by simpa using h
    obtain ⟨ih1, ih2⟩ := c10_aux1 t u ht
    unfold m4 m5 m6 m9 m10 series_sum at *
    cases a <;> cases b <;>
      simp only [List.zipWith_cons_cons, List.map_cons, List.count_cons] <;>
      simp <;> omega

theorem c10_aux2 : ∀ (cc ws wr : List Bool), cc.length = ws.length →
    ws.length = wr.length → series_sum (m8 cc ws wr) ≤ series_sum (m2 cc wr)
  | [], _, _, _, _ => by simp [m8, m2, series_sum]
  | _ :: _, [], _, h, _ => by simp at h
  | _ :: _, _ :: _, [], _, h => by simp at h
  | a :: t, b :: u, c :: v, h1, h2 => by
    have ht1 : t.length = u.length := by simpa using h1
    have ht2 : u.length = v.length := by simpa using h2
    have ih := c10_aux2 t u v ht1 ht2
    unfold m8 m2 series_sum at *
    cases a <;> cases b <;> cases c <;>
      simp only [List.zipWith_cons_cons, List.count_cons] <;>
      simp <;> omega

/-! ### Claim theorems -/

/-- C5: For every dataset and complete column mapping, Connected by Either is
at least Connected on Both, and Only Connected on Calls + Connected on Both +
Only Connected on WhatsApp + (rows where neither channel connected) equals
Total Leads (the row count `n`). -/
theorem c5_segment_sums_consistent (n : Nat) (cc wr : List Bool)
    (hcc : cc.length = n) (hwr : wr.length = n) :
    series_sum (m7 cc wr) ≤ series_sum (m1 cc wr) ∧
      series_sum (m2 cc wr) + series_sum (m7 cc wr) + series_sum (m3 cc wr) +
        series_sum (List.zipWith (fun a b => !a && !b) cc wr) = n := by
  have h := c5_aux cc wr (by rw [hcc, hwr])
  rw [hcc] at h
  exact h

/-- Witness for C5 at a concrete two-row input. -/
theorem c5_segment_sums_consistent_witness :
    ([true, false].length = 2 ∧ [true, true].length = 2) ∧
      (series_sum (m7 [true, false] [true, true]) ≤
          series_sum (m1 [true, false] [true, true]) ∧
        series_sum (m2 [true, false] [true, true]) +
          series_sum (m7 [true, false] [true, true]) +
          series_sum (m3 [true, false] [true, true]) +
          series_sum (List.zipWith (fun a b => !a && !b) [true, false] [true, true]) = 2) :=
  ⟨⟨rfl, rfl⟩, c5_segment_sums_consistent 2 [true, false] [true, true] rfl rfl⟩

/-- C10: the displayed hierarchy nests correctly: No Calls Attempted is
Neither Attempted plus No Calls but WhatsApp Attempted; No WhatsApp Attempted
is Neither Attempted plus No WhatsApp but Calls Attempted; and the nested
"Only Connected on Calls and WhatsApp Also Got Attempted" count never exceeds
its parent "Only Connected on Calls" (wa_attempted being wa_sent). -/
theorem c10_hierarchy_identities (n : Nat) (ca cc ws wr : List Bool)
    (hca : ca.length = n) (hcc : cc.length = n) (hws : ws.length = n)
    (hwr : wr.length = n) :
    series_sum (m4 ca) = series_sum (m6 ca ws) + series_sum (m9 ca ws) ∧
      series_sum (m5 ws) = series_sum (m6 ca ws) + series_sum (m10 ca ws) ∧
      series_sum (m8 cc ws wr) ≤ series_sum (m2 cc wr) := by
  obtain ⟨h1, h2⟩ := c10_aux1 ca ws (by rw [hca, hws])
  exact ⟨h1, h2, c10_aux2 cc ws wr (by rw [hcc, hws]) (by rw [hws, hwr])⟩

/-- Witness for C10 at a concrete one-row input. -/
theorem c10_hierarchy_identities_witness :
    ([true].length = 1 ∧ [true].length = 1 ∧ [true].length = 1 ∧ [false].length = 1) ∧
      (series_sum (m4 [true]) = series_sum (m6 [true] [true]) +
          series_sum (m9 [true] [true]) ∧
        series_sum (m5 [true]) = series_sum (m6 [true] [true]) +
          series_sum (m10 [true] [true]) ∧
        series_sum (m8 [true] [true] [false]) ≤ series_sum (m2 [true] [false])) :=
  ⟨⟨rfl, rfl, rfl, rfl⟩,
    c10_hierarchy_identities 1 [true] [true] [true] [false] rfl rfl rfl rfl⟩

/-- C1: each of the ten segment counts is the number of row indices satisfying
its fixed row predicate from the spec table (`ca`, `cc`, `ws`, `wr` being the
four boolean row vectors of a complete mapping, with wa_attempted = wa_sent
and wa_connected = wa_received); and on the spec's 4-row scenario dataset the
computation yields exactly the stated counts. -/
theorem c1_segment_counts (n : Nat) (ca cc ws wr : List Bool)
    (hca : ca.length = n) (hcc : cc.length = n) (hws : ws.length = n)
    (hwr : wr.length = n) :
    (series_sum (m1 cc wr) =
        ((List.range n).filter (fun i => cc.getD i false || wr.getD i false)).length ∧
      series_sum (m2 cc wr) =
        ((List.range n).filter (fun i => cc.getD i false && !wr.getD i false)).length ∧
      series_sum (m8 cc ws wr) =
        ((List.range n).filter
          (fun i => cc.getD i false && ws.getD i false && !wr.getD i false)).length ∧
      series_sum (m3 cc wr) =
        ((List.range n).filter (fun i => wr.getD i false && !cc.getD i false)).length ∧
      series_sum (m7 cc wr) =
        ((List.range n).filter (fun i => cc.getD i false && wr.getD i false)).length ∧
      series_sum (m6 ca ws) =
        ((List.range n).filter (fun i => !ca.getD i false && !ws.getD i false)).length ∧
      series_sum (m4 ca) =
        ((List.range n).filter (fun i => !ca.getD i false)).length ∧
      series_sum (m9 ca ws) =
        ((List.range n).filter (fun i => !ca.getD i false && ws.getD i false)).length ∧
      series_sum (m5 ws) =
        ((List.range n).filter (fun i => !ws.getD i false)).length ∧
      series_sum (m10 ca ws) =
        ((List.range n).filter (fun i => ca.getD i false && !ws.getD i false)).length) ∧
    compute_report scenario_ds "CallAttempted" "CallConnected" "WaSent" "WaReceived" =
      Except.ok
        [("Leads Connected by Either WhatsApp or Call (Connectivity)", 2),
         ("Only Connected on Calls", 1),
         ("Only Connected on Calls and WhatsApp Also Got Attempted", 1),
         ("Only Connected on WhatsApp", 1),
         ("Leads Connected on Both WhatsApp and Call", 0),
         ("Leads Where No WhatsApp and Calls Were Attempted (Call & WhatsApp = 0)", 1),
         ("No Calls Attempted", 2),
         ("No Calls Attempted but WhatsApp Attempted", 1),
         ("No WhatsApp Attempted", 1),
         ("No WhatsApp but Calls Attempted", 0),
         ("Total Leads", 4),
         ("Duplicate Leads", 0)] := by
  refine ⟨⟨?_, ?_, ?_, ?_, ?_, ?_, ?_, ?_, ?_, ?_⟩, by rfl⟩
  · exact countTrue_zipWith _ cc wr n hcc hwr
  · exact countTrue_zipWith _ cc wr n hcc hwr
  · rw [show m8 cc ws wr = List.zipWith (fun x r => x && !r)
        (List.zipWith (fun a b => a && b) cc ws) wr from rfl,
      countTrue_zipWith _ (List.zipWith (fun a b => a && b) cc ws) wr n
      (by rw [List.length_zipWith, hcc, hws, Nat.min_self]) hwr]
    congr 1
    apply List.filter_congr
    intro i hi
    have hi' : i < n := List.mem_range.mp hi
    rw [getD_zipWith _ cc ws i (by rw [hcc]; exact hi') (by rw [hws]; exact hi')]
  · exact countTrue_zipWith _ cc wr n hcc hwr
  · exact countTrue_zipWith _ cc wr n hcc hwr
  · exact countTrue_zipWith _ ca ws n hca hws
  · exact countTrue_map _ ca n hca
  · exact countTrue_zipWith _ ca ws n hca hws
  · exact countTrue_map _ ws n hws
  · exact countTrue_zipWith _ ca ws n hca hws

/-- Witness for C1 at the empty (zero-row) vectors. -/
theorem c1_segment_counts_witness :
    (([] : List Bool).length = 0 ∧ ([] : List Bool).length = 0 ∧
      ([] : List Bool).length = 0 ∧ ([] : List Bool).length = 0) ∧
    ((series_sum (m1 [] []) =
        ((List.range 0).filter
          (fun i => ([] : List Bool).getD i false || ([] : List Bool).getD i false)).length ∧
      series_sum (m2 [] []) =
        ((List.range 0).filter
          (fun i => ([] : List Bool).getD i false && !([] : List Bool).getD i false)).length ∧
      series_sum (m8 [] [] []) =
        ((List.range 0).filter
          (fun i => ([] : List Bool).getD i false && ([] : List Bool).getD i false &&
            !([] : List Bool).getD i false)).length ∧
      series_sum (m3 [] []) =
        ((List.range 0).filter
          (fun i => ([] : List Bool).getD i false && !([] : List Bool).getD i false)).length ∧
      series_sum (m7 [] []) =
        ((List.range 0).filter
          (fun i => ([] : List Bool).getD i false && ([] : List Bool).getD i false)).length ∧
      series_sum (m6 [] []) =
        ((List.range 0).filter
          (fun i => !([] : List Bool).getD i false && !([] : List Bool).getD i false)).length ∧
      series_sum (m4 []) =
        ((List.range 0).filter (fun i => !([] : List Bool).getD i false)).length ∧
      series_sum (m9 [] []) =
        ((List.range 0).filter
          (fun i => !([] : List Bool).getD i false && ([] : List Bool).getD i false)).length ∧
      series_sum (m5 []) =
        ((List.range 0).filter (fun i => !([] : List Bool).getD i false)).length ∧
      series_sum (m10 [] []) =
        ((List.range 0).filter
          (fun i => ([] : List Bool).getD i false && !([] : List Bool).getD i false)).length) ∧
    compute_report scenario_ds "CallAttempted" "CallConnected" "WaSent" "WaReceived" =
      Except.ok
        [("Leads Connected by Either WhatsApp or Call (Connectivity)", 2),
         ("Only Connected on Calls", 1),
         ("Only Connected on Calls and WhatsApp Also Got Attempted", 1),
         ("Only Connected on WhatsApp", 1),
         ("Leads Connected on Both WhatsApp and Call", 0),
         ("Leads Where No WhatsApp and Calls Were Attempted (Call & WhatsApp = 0)", 1),
         ("No Calls Attempted", 2),
         ("No Calls Attempted but WhatsApp Attempted", 1),
         ("No WhatsApp Attempted", 1),
         ("No WhatsApp but Calls Attempted", 0),
         ("Total Leads", 4),
         ("Duplicate Leads", 0)]) :=
  ⟨⟨rfl, rfl, rfl, rfl⟩, c1_segment_counts 0 [] [] [] [] rfl rfl rfl rfl⟩

/-- C2: whenever at least one cell of the column parses as a number, the whole
column is read numerically: each row is true exactly when its parsed value is
positive, with unparsable/missing cells coerced to 0; and the spec's numeric
example column maps as stated. -/
theorem c2_numeric_extraction (col : List Cell)
    (h : ∃ c ∈ col, (to_numeric_cell c).isSome = true) :
    to_bool_series col = col.map (fun c => decide (0 < (to_numeric_cell c).getD 0)) ∧
      to_bool_series [Cell.intVal 0, Cell.intVal 1, Cell.intVal (-2), Cell.strVal "3",
        Cell.strVal ""] = [false, true, false, true, false] := by
  refine ⟨?_, by rfl⟩
  unfold to_bool_series
  by_cases hb : dtype_is_bool col = true
  · rw [if_pos hb]
    apply List.map_congr_left
    intro c hc
    have hcb := List.all_eq_true.mp hb c hc
    cases c with
    | missing => simp at hcb
    | boolVal b => cases b <;> rfl
    | intVal n => simp at hcb
    | strVal s => simp at hcb
  · rw [if_neg hb]
    have hany : col.any (fun c => (to_numeric_cell c).isSome) = true := by
      rw [List.any_eq_true]
      obtain ⟨c, hc, h1⟩ := h
      exact ⟨c, hc, h1⟩
    rw [if_pos hany]

/-- Witness for C2 at a concrete single-cell numeric column. -/
theorem c2_numeric_extraction_witness :
    (∃ c ∈ [Cell.intVal 1], (to_numeric_cell c).isSome = true) ∧
      (to_bool_series [Cell.intVal 1] =
          [Cell.intVal 1].map (fun c => decide (0 < (to_numeric_cell c).getD 0)) ∧
        to_bool_series [Cell.intVal 0, Cell.intVal 1, Cell.intVal (-2), Cell.strVal "3",
          Cell.strVal ""] = [false, true, false, true, false]) :=
  ⟨⟨Cell.intVal 1, by simp, rfl⟩,
    c2_numeric_extraction [Cell.intVal 1] ⟨Cell.intVal 1, by simp, rfl⟩⟩

/-- C3: on a column whose non-missing values are all genuine booleans, the
extractor passes the booleans through unchanged and sends missing to false,
whichever internal branch handles the column. -/
theorem c3_bool_extraction (col : List Cell)
    (h : ∀ c ∈ col, c = Cell.missing ∨ ∃ b, c = Cell.boolVal b) :
    to_bool_series col = col.map (fun c => match c with
      | Cell.boolVal b => b
      | _ => false) := by
  unfold to_bool_series
  by_cases hb : dtype_is_bool col = true
  · rw [if_pos hb]
  · rw [if_neg hb]
    by_cases hany : col.any (fun c => (to_numeric_cell c).isSome) = true
    · rw [if_pos hany]
      apply List.map_congr_left
      intro c hc
      rcases h c hc with rfl | ⟨b, rfl⟩
      · rfl
      · cases b <;> rfl
    · rw [if_neg hany]
      apply List.map_congr_left
      intro c hc
      have hnone : ∀ x ∈ col, to_numeric_cell x = none := by simpa using hany
      rcases h c hc with rfl | ⟨b, rfl⟩
      · rfl
      · have hcon := hnone _ hc
        simp [to_numeric_cell] at hcon

/-- Witness for C3 at a concrete bool-and-missing column. -/
theorem c3_bool_extraction_witness :
    (∀ c ∈ [Cell.boolVal true, Cell.missing],
        c = Cell.missing ∨ ∃ b, c = Cell.boolVal b) ∧
      to_bool_series [Cell.boolVal true, Cell.missing] =
        [Cell.boolVal true, Cell.missing].map (fun c => match c with
          | Cell.boolVal b => b
          | _ => false) := by
  have h : ∀ c ∈ [Cell.boolVal true, Cell.missing],
      c = Cell.missing ∨ ∃ b, c = Cell.boolVal b := by
    intro c hc
    simp only [List.mem_cons, List.not_mem_nil, or_false] at hc
    rcases hc with rfl | rfl
    · exact Or.inr ⟨true, rfl⟩
    · exact Or.inl rfl
  exact ⟨h, c3_bool_extraction _ h⟩

/-- C4: a column that is not bool-dtyped and where no cell parses as a number
is read as categorical text; each cell is true exactly when its stripped,
lowercased string form is one of the twelve true-ish words; the spec's
categorical example maps as stated, and empty and missing cells map to false. -/
theorem c4_categorical_extraction (col : List Cell)
    (hb : dtype_is_bool col = false)
    (hn : ∀ c ∈ col, to_numeric_cell c = none) :
    to_bool_series col = col.map (fun c =>
        decide (strip_lower (py_str c) ∈
          ["yes", "y", "true", "t", "1", "connected", "done", "received",
           "delivered", "answer", "answered", "success"])) ∧
      to_bool_series [Cell.strVal "Yes", Cell.strVal "no", Cell.strVal "TRUE",
        Cell.strVal "maybe"] = [true, false, true, false] ∧
      to_bool_series [Cell.missing, Cell.strVal ""] = [false, false] := by
  refine ⟨?_, by rfl, by rfl⟩
  unfold to_bool_series
  rw [if_neg (by simp [hb]), if_neg ?hany]
  case hany =>
    simp only [Bool.not_eq_true, List.any_eq_false]
    intro c hc
    simp [hn c hc]
  apply List.map_congr_left
  intro c hc
  simp [List.contains, true_set]

/-- Witness for C4 at a concrete non-matching text column. -/
theorem c4_categorical_extraction_witness :
    (dtype_is_bool [Cell.strVal "maybe"] = false ∧
      ∀ c ∈ [Cell.strVal "maybe"], to_numeric_cell c = none) ∧
      (to_bool_series [Cell.strVal "maybe"] = [Cell.strVal "maybe"].map (fun c =>
          decide (strip_lower (py_str c) ∈
            ["yes", "y", "true", "t", "1", "connected", "done", "received",
             "delivered", "answer", "answered", "success"])) ∧
        to_bool_series [Cell.strVal "Yes", Cell.strVal "no", Cell.strVal "TRUE",
          Cell.strVal "maybe"] = [true, false, true, false] ∧
        to_bool_series [Cell.missing, Cell.strVal ""] = [false, false]) :=
  ⟨⟨rfl, by decide⟩, c4_categorical_extraction [Cell.strVal "maybe"] rfl (by decide)⟩

/-- C6: Duplicate Leads marks every row whose phone value also occurs at some
other row, which is exactly the spec's "member of a group of size at least 2"
count; and the spec's three-row example yields 2. -/
theorem c6_duplicate_leads :
    (∀ vals : List Cell, duplicate_leads vals = duplicate_leads_spec vals) ∧
      duplicate_leads [Cell.strVal "555-1", Cell.strVal "555-1",
        Cell.strVal "555-2"] = 2 := by
  refine ⟨?_, by rfl⟩
  intro vals
  unfold duplicate_leads duplicated_keep_false duplicate_leads_spec
  have h1 : ∀ l : List Bool, l.count true = l.countP (fun b => b) :=
    fun l => series_sum_eq_countP l
  rw [h1, List.countP_map, countP_range Cell.missing]
  apply List.countP_congr
  intro i hi
  have hi' := List.mem_range.mp hi
  show ((List.range vals.length).any (fun j =>
      decide (j ≠ i) && decide (vals.getD j Cell.missing = vals.getD i Cell.missing))) = true ↔
    decide (2 ≤ vals.count (vals.getD i Cell.missing)) = true
  rw [List.any_eq_true, decide_eq_true_eq, count_getD_two_le vals i hi']
  simp only [List.mem_range, Bool.and_eq_true, decide_eq_true_eq]

/-- C7: the column guesser returns the first column label, in the dataset's
original order, whose normalized form contains some keyword as a contiguous
substring, and returns no match (not an error) when no column qualifies; on
the spec's example it selects "Call Attempt Flag". -/
theorem c7_guess_column_first_match (columns keywords : List String) :
    (∀ c : String, guess_column columns keywords = some c ↔
        ∃ i, i < columns.length ∧ columns.getD i "" = c ∧ keyword_occurs keywords c ∧
          ∀ j, j < i → ¬ keyword_occurs keywords (columns.getD j "")) ∧
      (guess_column columns keywords = none ↔
        ∀ d ∈ columns, ¬ keyword_occurs keywords d) ∧
      guess_column ["Call Attempt Flag", "WA Sent?"] call_attempted_keywords =
        some "Call Attempt Flag" := by
  refine ⟨?_, ?_, by rfl⟩
  · intro c
    rw [guess_column_some_iff]
    constructor
    · rintro ⟨i, hi, hgd, hm, hall⟩
      refine ⟨i, hi, hgd, (matches_any_iff _ _).mp hm, fun j hj hocc => ?_⟩
      have hfalse := hall j hj
      rw [(matches_any_iff _ _).mpr hocc] at hfalse
      exact absurd hfalse (by simp)
    · rintro ⟨i, hi, hgd, hm, hall⟩
      refine ⟨i, hi, hgd, (matches_any_iff _ _).mpr hm, fun j hj => ?_⟩
      by_cases hbb : matches_any keywords (columns.getD j "") = true
      · exact absurd ((matches_any_iff _ _).mp hbb) (hall j hj)
      · simpa using hbb
  · rw [guess_column_none_iff]
    constructor
    · intro hf d hd hocc
      have hfd := hf d hd
      rw [(matches_any_iff _ _).mpr hocc] at hfd
      exact absurd hfd (by simp)
    · intro hf d hd
      by_cases hbb : matches_any keywords d = true
      · exact absurd ((matches_any_iff _ _).mp hbb) (hf d hd)
      · simpa using hbb

/-- C8: the normalizer is total and equals lowercasing followed by removal of
every non-alphanumeric character; the two example labels both normalize to
"callsattempted", and empty or whitespace-only input normalizes to the empty
string. -/
theorem c8_normalize (s : String) :
    normalize s = normalize_spec s ∧
      normalize "Calls - Attempted!!" = "callsattempted" ∧
      normalize "CALLSATTEMPTED" = "callsattempted" ∧
      normalize "" = "" ∧
      ∀ t : String, (∀ c ∈ t.toList, c.isWhitespace = true) → normalize t = "" := by
  refine ⟨normalize_eq_spec s, by rfl, by rfl, by rfl, ?_⟩
  intro t ht
  rw [normalize_eq_spec]
  unfold normalize_spec
  rw [ws_map_filter_eq_nil t.toList ht]

/-- Witness for C8 at a concrete whitespace-only string. -/
theorem c8_normalize_witness :
    (∀ c ∈ "  ".toList, c.isWhitespace = true) ∧ normalize "  " = "" :=
  ⟨by decide, (c8_normalize "  ").2.2.2.2 "  " (by decide)⟩

/-- C9: when the dataset has no "Phone Number" column, the duplicate-lead
lookup fails and the whole computation fails hard: the pipeline returns an
error and never produces a metrics table, partial or otherwise. -/
theorem c9_missing_identifier_hard_failure (ds : Dataset)
    (sel_ca sel_cc sel_ws sel_wr : String)
    (h : ∀ p ∈ ds.columns, p.1 ≠ "Phone Number") :
    (∃ e, compute_report ds sel_ca sel_cc sel_ws sel_wr = Except.error e) ∧
      ∀ tbl, compute_report ds sel_ca sel_cc sel_ws sel_wr ≠ Except.ok tbl := by
  have hp : lookupCol ds "Phone Number" = none := by
    unfold lookupCol
    have hfind : ds.columns.find? (fun p => decide (p.1 = "Phone Number")) = none :=
      List.find?_eq_none.mpr (fun x hx => by simp [h x hx])
    rw [hfind]
    rfl
  have key : ∃ e, compute_report ds sel_ca sel_cc sel_ws sel_wr = Except.error e := by
    cases hca : lookupCol ds sel_ca with
    | none => exact ⟨AppError.signalInterpretation, by simp [compute_report, hca]⟩
    | some ca_col =>
      cases hcc : lookupCol ds sel_cc with
      | none => exact ⟨AppError.signalInterpretation, by simp [compute_report, hca, hcc]⟩
      | some cc_col =>
        cases hws2 : lookupCol ds sel_ws with
        | none => exact ⟨AppError.signalInterpretation,
            by simp [compute_report, hca, hcc, hws2]⟩
        | some ws_col =>
          cases hwr2 : lookupCol ds sel_wr with
          | none => exact ⟨AppError.signalInterpretation,
              by simp [compute_report, hca, hcc, hws2, hwr2]⟩
          | some wr_col => exact ⟨AppError.missingIdentifierColumn,
              by simp [compute_report, hca, hcc, hws2, hwr2, hp]⟩
  refine ⟨key, fun tbl hok => ?_⟩
  obtain ⟨e, he⟩ := key
  rw [he] at hok
  exact Except.noConfusion hok

/-- Witness for C9 at a concrete one-column dataset without "Phone Number". -/
theorem c9_missing_identifier_hard_failure_witness :
    (∀ p ∈ (⟨[("A", [Cell.intVal 1])]⟩ : Dataset).columns, p.1 ≠ "Phone Number") ∧
      ∃ e, compute_report ⟨[("A", [Cell.intVal 1])]⟩ "A" "A" "A" "A" = Except.error e :=
  ⟨by decide,
    (c9_missing_identifier_hard_failure ⟨[("A", [Cell.intVal 1])]⟩ "A" "A" "A" "A"
      (by decide)).1⟩

end ActivateReports
